import Mathlib

/-!
Shallow embedding of the clawcontrol deployment orchestrator
(src/providers/index.ts), its checkpoint ledger operations, and the
DigitalOcean API client (src/providers/digitalocean/api.ts), together with
theorems settling the specification claims.

Conventions of the embedding:
* TypeScript string-keyed enums become Lean inductive types.
* The persisted deployment state file becomes an explicit `DeploymentState`
  value threaded through the operations; `readDeploymentState` becomes
  reading the threaded value and `updateDeploymentState` becomes a pure
  field-merge (its implementation lives in src/services/config.ts which is
  not part of the provided sources, so it is modelled from the spec).
* JavaScript `Array.prototype.indexOf` (which yields -1 when absent)
  becomes `jsIndexOf` returning an `Int`.
* JavaScript `Array.prototype.sort` is a stable sort; every stable sort
  produces the same output list, so it is embedded as insertion sort.
* `new Date().toISOString()` timestamps become strings rendered from a
  logical clock threaded through the orchestrator run.
* The orchestrator's side effects (step execution, progress callbacks,
  confirmation callbacks, persisted writes) are recorded in an event trace;
  the outcome of each remote step and each confirmation answer is supplied
  by an `Env` oracle.
-/

/-- Checkpoint names of the persisted-state schema (src/types/index.ts).
`channel_paired` is in the schema for backward compatibility but absent
from the active fixed order. -/
inductive CheckpointName where
  | server_created
  | ssh_key_uploaded
  | ssh_connected
  | swap_configured
  | system_updated
  | nvm_installed
  | node_installed
  | pnpm_installed
  | chrome_installed
  | openclaw_installed
  | openclaw_configured
  | tailscale_installed
  | tailscale_authenticated
  | tailscale_configured
  | daemon_started
  | channel_paired
  | completed
deriving DecidableEq, Repr, Fintype

/-- Deployment status values of the persisted-state schema. -/
inductive DeploymentStatus where
  | initialized
  | provisioning
  | configuring
  | deployed
  | failed
  | updating
deriving DecidableEq, Repr, Fintype

/-- One entry of the checkpoint ledger. -/
structure Checkpoint where
  name : CheckpointName
  completedAt : String
  retryCount : Nat
deriving DecidableEq, Repr

/-- The persisted deployment state (state.json). -/
structure DeploymentState where
  status : DeploymentStatus
  serverId : Option String := none
  serverIp : Option String := none
  tailscaleIp : Option String := none
  sshKeyId : Option String := none
  sshKeyFingerprint : Option String := none
  checkpoints : List Checkpoint := []
  lastError : Option String := none
  deployedAt : Option String := none
  updatedAt : String := ""
deriving DecidableEq, Repr

/-- MAX_RETRIES from src/providers/index.ts. -/
def MAX_RETRIES : Nat := 3

/-- The fixed 16-checkpoint order (CHECKPOINT_ORDER in
src/providers/index.ts); `channel_paired` is deliberately absent. -/
def CHECKPOINT_ORDER : List CheckpointName :=
  [ .server_created
  , .ssh_key_uploaded
  , .ssh_connected
  , .swap_configured
  , .system_updated
  , .nvm_installed
  , .node_installed
  , .pnpm_installed
  , .chrome_installed
  , .openclaw_installed
  , .openclaw_configured
  , .tailscale_installed
  , .tailscale_authenticated
  , .tailscale_configured
  , .daemon_started
  , .completed ]

/-- JavaScript `Array.prototype.indexOf` on a list of checkpoint names:
the index of the first occurrence, and -1 when the name is absent. -/
def jsIndexOf (l : List CheckpointName) (n : CheckpointName) : Int :=
  match l.findIdx? (fun m => decide (m = n)) with
  | some i => (i : Int)
  | none => -1

/-- Comparison key used by the ledger sort and filters: the fixed-order
index of a checkpoint name (-1 when outside the order). -/
def orderIndex (n : CheckpointName) : Int :=
  jsIndexOf CHECKPOINT_ORDER n

/-- The sort relation used by getLastCheckpoint (the JS comparator
`(a, b) => indexOf(a.name) - indexOf(b.name)` sorts ascending by index). -/
def cpLe (a b : Checkpoint) : Prop :=
  orderIndex a.name ≤ orderIndex b.name

instance : DecidableRel cpLe := fun a b =>
  inferInstanceAs (Decidable (orderIndex a.name ≤ orderIndex b.name))

instance : IsTotal Checkpoint cpLe :=
  ⟨fun a b => Int.le_total (orderIndex a.name) (orderIndex b.name)⟩

instance : IsTrans Checkpoint cpLe :=
  ⟨fun _ _ _ hab hbc => le_trans hab hbc⟩

/-- getLastCheckpoint (src/providers/index.ts line 94): filter the ledger
to names in the fixed order, stable-sort ascending by fixed-order index,
and return the name of the final element (null when none survive). -/
def getLastCheckpoint (state : DeploymentState) : Option CheckpointName :=
  if state.checkpoints = [] then none
  else
    let sorted := List.insertionSort cpLe
      (state.checkpoints.filter (fun cp => decide (cp.name ∈ CHECKPOINT_ORDER)))
    (sorted.getLast?).map (fun cp => cp.name)

/-- getNextCheckpoint (line 113): successor in the fixed order of the last
completed checkpoint; the first checkpoint when the ledger is empty;
`completed` when the last checkpoint is the final one (or unknown). -/
def getNextCheckpoint (state : DeploymentState) : CheckpointName :=
  match getLastCheckpoint state with
  | none => CHECKPOINT_ORDER.headD .completed
  | some lastCheckpoint =>
    let currentIndex := jsIndexOf CHECKPOINT_ORDER lastCheckpoint
    if currentIndex = -1 ∨ currentIndex ≥ (CHECKPOINT_ORDER.length : Int) - 1 then
      .completed
    else
      CHECKPOINT_ORDER.getD (currentIndex + 1).toNat .completed

/-- Field-wise update applied to the persisted state; `none` leaves a field
unchanged, and for clearable fields `some none` stores `undefined`. -/
structure StateUpdate where
  status : Option DeploymentStatus := none
  checkpoints : Option (List Checkpoint) := none
  lastError : Option (Option String) := none
  deployedAt : Option String := none
  serverId : Option (Option String) := none
  serverIp : Option (Option String) := none
  sshKeyId : Option (Option String) := none
  sshKeyFingerprint : Option (Option String) := none
  tailscaleIp : Option (Option String) := none

/-- Modelled from the spec: `updateDeploymentState` lives in
src/services/config.ts, which is not among the provided sources. Per the
spec the persisted state layout round-trips exactly and the ledger is
written read-modify-write, so the update merges the provided fields into
the current state and stamps `updatedAt`. -/
def updateDeploymentState (s : DeploymentState) (u : StateUpdate)
    (now : String) : DeploymentState :=
  { status := u.status.getD s.status
  , serverId := (u.serverId.map id).getD s.serverId
  , serverIp := (u.serverIp.map id).getD s.serverIp
  , tailscaleIp := (u.tailscaleIp.map id).getD s.tailscaleIp
  , sshKeyId := (u.sshKeyId.map id).getD s.sshKeyId
  , sshKeyFingerprint := (u.sshKeyFingerprint.map id).getD s.sshKeyFingerprint
  , checkpoints := u.checkpoints.getD s.checkpoints
  , lastError := (u.lastError.map id).getD s.lastError
  , deployedAt := (u.deployedAt.map (fun v => some v)).getD s.deployedAt
  , updatedAt := now }

/-- markCheckpointComplete (line 131): overwrite the existing entry for the
name in place, else append a new entry; status becomes `deployed` for the
final checkpoint and `configuring` otherwise. -/
def markCheckpointComplete (state : DeploymentState)
    (checkpointName : CheckpointName) (retryCount : Nat)
    (now : String) : DeploymentState :=
  let existingIndex := state.checkpoints.findIdx?
    (fun cp => decide (cp.name = checkpointName))
  let checkpoint : Checkpoint :=
    { name := checkpointName, completedAt := now, retryCount := retryCount }
  let newCheckpoints :=
    match existingIndex with
    | some i => state.checkpoints.set i checkpoint
    | none => state.checkpoints ++ [checkpoint]
  updateDeploymentState state
    { checkpoints := some newCheckpoints
    , status := some (if checkpointName = .completed then .deployed else .configuring) }
    now

/-- getCheckpointRetryCount (line 164). -/
def getCheckpointRetryCount (state : DeploymentState)
    (checkpointName : CheckpointName) : Nat :=
  match state.checkpoints.find? (fun cp => decide (cp.name = checkpointName)) with
  | some cp => cp.retryCount
  | none => 0

/-- resetToCheckpoint (line 175): keep only entries whose fixed-order index
is below the target's, set status by whether any remain, clear lastError. -/
def resetToCheckpoint (state : DeploymentState)
    (checkpointName : CheckpointName) (now : String) : DeploymentState :=
  let checkpointIndex := jsIndexOf CHECKPOINT_ORDER checkpointName
  let newCheckpoints := state.checkpoints.filter
    (fun cp => decide (jsIndexOf CHECKPOINT_ORDER cp.name < checkpointIndex))
  updateDeploymentState state
    { checkpoints := some newCheckpoints
    , status := some (if newCheckpoints.length > 0 then .configuring else .initialized)
    , lastError := some none }
    now

/-- The structured error thrown on terminal failure
(DeploymentError in src/providers/index.ts). -/
structure DeploymentError where
  message : String
  checkpoint : CheckpointName
  retryCount : Nat
  recoverable : Bool
deriving DecidableEq, Repr

/-- The payload of the progress callback (DeploymentProgress). The
`progress` percentage is a rational to model the JS floating division
`index / (length - 1) * 100` exactly (it is exact for these operands). -/
structure DeploymentProgress where
  currentStep : CheckpointName
  completedSteps : List CheckpointName
  totalSteps : Nat
  progress : ℚ
  message : String
deriving DecidableEq, Repr

/-- Observable events of an orchestrator run: invocations of the progress
and confirmation callbacks, executions of a checkpoint's step
implementation (with its success flag), and synchronous writes of the
persisted state file. -/
inductive Event where
  | progressReport (p : DeploymentProgress)
  | stepExecuted (step : CheckpointName) (success : Bool)
  | confirmAsked (message : String) (answer : Bool)
  | persisted (st : DeploymentState)
deriving DecidableEq, Repr

/-- Oracle supplying the outcome of the remote-side effects: for the t-th
step execution of the whole run, `stepOutcome c t` is `none` on success and
`some errorMessage` when the step implementation throws; `confirmAnswer k`
answers the k-th confirmation request of the run. -/
structure Env where
  stepOutcome : CheckpointName → Nat → Option String
  confirmAnswer : Nat → Bool

/-- The orchestrator's running context: the persisted state, the event
trace so far, the step-execution counter, the confirmation counter, and a
logical clock rendered into timestamps. -/
structure RunState where
  state : DeploymentState
  trace : List Event := []
  time : Nat := 0
  confirms : Nat := 0
  clock : Nat := 0

/-- Record a synchronous write of the persisted state. -/
def persist (rs : RunState) (st : DeploymentState) : RunState :=
  { rs with
    state := st,
    trace := rs.trace ++ [Event.persisted st],
    clock := rs.clock + 1 }

/-- getCheckpointDescription (line 695). `channel_paired` is not a key of
the description table; the code falls back to the raw checkpoint name. -/
def getCheckpointDescription (checkpoint : CheckpointName) : String :=
  match checkpoint with
  | .server_created => "Creating VPS server"
  | .ssh_key_uploaded => "Uploading SSH keys"
  | .ssh_connected => "Connecting via SSH"
  | .swap_configured => "Setting up swap memory"
  | .system_updated => "Updating system packages"
  | .nvm_installed => "Installing NVM"
  | .node_installed => "Installing Node.js"
  | .pnpm_installed => "Installing pnpm"
  | .chrome_installed => "Installing Google Chrome"
  | .openclaw_installed => "Installing OpenClaw"
  | .openclaw_configured => "Configuring OpenClaw"
  | .tailscale_installed => "Installing Tailscale"
  | .tailscale_authenticated => "Authenticating Tailscale"
  | .tailscale_configured => "Configuring Tailscale"
  | .daemon_started => "Starting OpenClaw daemon"
  | .completed => "Deployment complete"
  | .channel_paired => "channel_paired"

/-- reportProgress (line 680): reads the persisted state and invokes the
progress callback; progress is `index / (order length - 1) * 100`. -/
def reportProgress (rs : RunState) (step : CheckpointName)
    (message : String) : RunState :=
  let state := rs.state
  let completedSteps := state.checkpoints.map (fun cp => cp.name)
  let currentIndex := jsIndexOf CHECKPOINT_ORDER step
  let progress : ℚ :=
    (currentIndex : ℚ) / ((CHECKPOINT_ORDER.length : ℚ) - 1) * 100
  { rs with trace := rs.trace ++
      [Event.progressReport
        { currentStep := step
        , completedSteps := completedSteps
        , totalSteps := CHECKPOINT_ORDER.length
        , progress := progress
        , message := message }] }

/-- The message passed to the confirmation callback once a checkpoint's
retries are exhausted (line 281). -/
def exhaustedConfirmMessage (stepDescription errorMessage : String) : String :=
  "\"" ++ stepDescription ++ "\" failed after " ++ toString MAX_RETRIES ++
  " attempts.\n\nError: " ++ errorMessage ++
  "\n\nThis could be caused by a temporary network issue, a misconfigured API key, " ++
  "or a problem with the remote server. You can retry the deployment from the beginning " ++
  "to try again.\n\nWould you like to retry from the beginning?"

/-- The message of the terminal DeploymentError (line 296). -/
def terminalErrorMessage (stepDescription errorMessage : String) : String :=
  "Deployment failed at \"" ++ stepDescription ++ "\": " ++ errorMessage

/-- Result of the per-checkpoint retry loop (the while loop of
executeFromCheckpoint, lines 256-304): either the loop exits and the outer
for loop moves on, or a confirmed restart was requested, or the terminal
DeploymentError was thrown. -/
inductive StepLoopResult where
  | moveOn (rs : RunState)
  | restart (rs : RunState)
  | thrown (rs : RunState) (e : DeploymentError)

/-- The retry while-loop for one checkpoint. The loop guard is
`retryCount < MAX_RETRIES`; `fuel` is the number of guard successes still
possible, so the loop is called with `fuel = MAX_RETRIES - retryCount` and
each failed attempt consumes one unit. With `fuel = 0` the guard is false
and the loop exits without executing the step. On success the completion is
persisted with the current retry count and the loop breaks; on failure the
retry count is incremented, `status=failed` plus the error message are
persisted, and either the loop retries (after the 5s backoff, irrelevant to
the embedding) or, once retries are exhausted, the confirmation callback
decides between a restart request and the terminal DeploymentError. -/
def runWhile (env : Env) (checkpoint : CheckpointName) :
    Nat → Nat → RunState → StepLoopResult
  | 0, _, rs => .moveOn rs
  | fuel + 1, retryCount, rs =>
    match env.stepOutcome checkpoint rs.time with
    | none =>
      let rs := { rs with
        trace := rs.trace ++ [Event.stepExecuted checkpoint true],
        time := rs.time + 1 }
      let rs := persist rs
        (markCheckpointComplete rs.state checkpoint retryCount (toString rs.clock))
      .moveOn rs
    | some errorMessage =>
      let rs := { rs with
        trace := rs.trace ++ [Event.stepExecuted checkpoint false],
        time := rs.time + 1 }
      let retryCount := retryCount + 1
      let stepDescription := getCheckpointDescription checkpoint
      let rs := persist rs
        (updateDeploymentState rs.state
          { lastError := some (some errorMessage), status := some .failed }
          (toString rs.clock))
      if retryCount < MAX_RETRIES then
        let rs := reportProgress rs checkpoint
          (stepDescription ++ " failed (attempt " ++ toString retryCount ++
            "/" ++ toString MAX_RETRIES ++ "), retrying...")
        runWhile env checkpoint fuel retryCount rs
      else
        let message := exhaustedConfirmMessage stepDescription errorMessage
        let answer := env.confirmAnswer rs.confirms
        let rs := { rs with
          trace := rs.trace ++ [Event.confirmAsked message answer],
          confirms := rs.confirms + 1 }
        if answer then
          .restart rs
        else
          .thrown rs
            { message := terminalErrorMessage stepDescription errorMessage
            , checkpoint := checkpoint
            , retryCount := retryCount
            , recoverable := false }

/-- Outcome of executeFromCheckpoint / deploy: normal completion, a thrown
DeploymentError, or exhaustion of the bound on confirmed full restarts
(the TS recursion has no such bound; `outOfFuel` only marks runs longer
than the chosen bound and is never a claim's subject). -/
inductive RunResult where
  | success (rs : RunState)
  | error (rs : RunState) (e : DeploymentError)
  | outOfFuel (rs : RunState)

/-- Result of one pass of executeFromCheckpoint's for loop: either the
run ends (success, or the thrown DeploymentError), or a confirmed full
restart was requested, aborting the pass (the TS code recurses and then
returns; the recursion is performed by `execFrom` below). -/
inductive PassResult where
  | finished (r : RunResult)
  | restartRequested (rs : RunState)

/-- The for loop of executeFromCheckpoint (lines 249-305) over the
remaining checkpoints, followed by the final `status=deployed` write
(line 307) once the loop runs off the end of the order. -/
def execPass (env : Env) : List CheckpointName → RunState → PassResult
  | [], rs =>
    .finished (.success (persist rs
      (updateDeploymentState rs.state
        { status := some .deployed, deployedAt := some (toString rs.clock) }
        (toString rs.clock))))
  | checkpoint :: rest, rs =>
    let retryCount := getCheckpointRetryCount rs.state checkpoint
    let rs := reportProgress rs checkpoint (getCheckpointDescription checkpoint)
    match runWhile env checkpoint (MAX_RETRIES - retryCount) retryCount rs with
    | .moveOn rs => execPass env rest rs
    | .thrown rs e => .finished (.error rs e)
    | .restart rs => .restartRequested rs

/-- The restart recursion of executeFromCheckpoint (lines 290-293): a
confirmed restart resets to the first checkpoint and re-runs the loop over
the whole order. `restartFuel` bounds the number of confirmed restarts
(the TS recursion is unbounded); `outOfFuel` only marks runs restarting
more often than the chosen bound. -/
def execFrom (env : Env) : Nat → List CheckpointName → RunState → RunResult
  | 0, checkpoints, rs =>
    match execPass env checkpoints rs with
    | .finished r => r
    | .restartRequested rs => .outOfFuel rs
  | f + 1, checkpoints, rs =>
    match execPass env checkpoints rs with
    | .finished r => r
    | .restartRequested rs =>
      execFrom env f CHECKPOINT_ORDER
        (persist rs (resetToCheckpoint rs.state
          (CHECKPOINT_ORDER.headD .completed) (toString rs.clock)))

/-- executeFromCheckpoint (line 246): run the for loop from the index of
the start checkpoint. The orchestrator only passes members of the fixed
order here, for which `Int.toNat` of the index is exact. -/
def executeFromCheckpoint (env : Env) (restartFuel : Nat)
    (startCheckpoint : CheckpointName) (rs : RunState) : RunResult :=
  let startIndex := jsIndexOf CHECKPOINT_ORDER startCheckpoint
  execFrom env restartFuel (CHECKPOINT_ORDER.drop startIndex.toNat) rs

/-- deploy (line 225): compute the resume point, persist
`status=provisioning`, and execute from the resume point. -/
def deploy (env : Env) (restartFuel : Nat) (rs : RunState) : RunResult :=
  let startCheckpoint := getNextCheckpoint rs.state
  let rs := persist rs
    (updateDeploymentState rs.state { status := some .provisioning }
      (toString rs.clock))
  executeFromCheckpoint env restartFuel startCheckpoint rs

/-- Structured error of the DigitalOcean client: either the
DigitalOceanAPIError constructed by `request` from a non-ok response, or an
exception thrown by the transport itself (e.g. a network failure). -/
inductive DOError where
  | api (code : String) (message : String) (statusCode : Nat)
  | network (e : String)
deriving DecidableEq, Repr

/-- The data visible to `request` about one fetch: the HTTP status, the
`ok` flag, and the optional `id` and `message` fields of the JSON body. -/
structure DOResponse where
  status : Nat
  ok : Bool
  id : Option String := none
  message : Option String := none
deriving DecidableEq, Repr

/-- Outcome of the underlying `fetch` call: a response, or a thrown
transport exception. -/
inductive FetchOutcome where
  | response (r : DOResponse)
  | networkError (e : String)
deriving DecidableEq, Repr

/-- DigitalOceanClient.request (src/providers/digitalocean/api.ts line 29)
for a call whose payload is not inspected: status 204 short-circuits to
success; a non-ok response throws a DigitalOceanAPIError built from the
body's `id`/`message` fields (with defaults); otherwise success. A
transport exception propagates. -/
def doRequest (outcome : FetchOutcome) : Except DOError Unit :=
  match outcome with
  | .networkError e => .error (.network e)
  | .response r =>
    if r.status = 204 then .ok ()
    else if !r.ok then
      .error (.api (r.id.getD ("unknown"))
        (r.message.getD ("Unknown DigitalOcean API error")) r.status)
    else .ok ()

/-- DigitalOceanClient.validateAPIKey (line 230): one authenticated GET of
/account; true on success, false when the thrown error is a
DigitalOceanAPIError with code "unauthorized", otherwise rethrow. -/
def validateAPIKey (outcome : FetchOutcome) : Except DOError Bool :=
  match doRequest outcome with
  | .ok _ => .ok true
  | .error e =>
    match e with
    | .api code _ _ => if code = "unauthorized" then .ok false else .error e
    | .network msg => .error (.network msg)

/-- The checkpoints whose step implementation ran, in execution order. -/
def executedSteps : List Event → List CheckpointName
  | [] => []
  | .stepExecuted c _ :: es => c :: executedSteps es
  | _ :: es => executedSteps es

/-- The statuses written to the persisted state, in write order. -/
def persistedStatuses : List Event → List DeploymentStatus
  | [] => []
  | .persisted st :: es => st.status :: persistedStatuses es
  | _ :: es => persistedStatuses es

/-- The progress percentages passed to the progress callback, in order. -/
def progressValues : List Event → List ℚ
  | [] => []
  | .progressReport p :: es => p.progress :: progressValues es
  | _ :: es => progressValues es

/-- The messages passed to the confirmation callback, in order. -/
def confirmMessages : List Event → List String
  | [] => []
  | .confirmAsked m _ :: es => m :: confirmMessages es
  | _ :: es => confirmMessages es

/-- The persisted states written during the run, in write order. -/
def persistedStates : List Event → List DeploymentState
  | [] => []
  | .persisted st :: es => st :: persistedStates es
  | _ :: es => persistedStates es

/-- The running context of the result of a run. -/
def RunResult.ctx : RunResult → RunState
  | .success rs => rs
  | .error rs _ => rs
  | .outOfFuel rs => rs

/-- Rank of a status along the forward chain
initialized → provisioning → configuring → deployed/failed claimed by the
spec (the two outcomes share the final rank; `updating` is unreachable in
the orchestrator and ranked last). -/
def statusRank : DeploymentStatus → Nat
  | .initialized => 0
  | .provisioning => 1
  | .configuring => 2
  | .deployed => 3
  | .failed => 3
  | .updating => 4

/-- A deployment state whose ledger holds exactly the first k checkpoints
of the fixed order, in storage order, with arbitrary timestamps and retry
counters, and no entries outside the order. -/
def prefixState (k : Nat) (status : DeploymentStatus)
    (ts : CheckpointName → String) (rc : CheckpointName → Nat) :
    DeploymentState :=
  { status := status
  , checkpoints := (CHECKPOINT_ORDER.take k).map
      (fun n => { name := n, completedAt := ts n, retryCount := rc n }) }

/-- The names stored in a ledger. -/
def ledgerNames (cps : List Checkpoint) : List CheckpointName :=
  cps.map (fun cp => cp.name)

/-- Recursive form of the ledger write of markCheckpointComplete: replace
the first entry bearing the name in place, else append. -/
def overwriteEntry (v : Checkpoint) : List Checkpoint → List Checkpoint
  | [] => [v]
  | cp :: rest =>
    if cp.name = v.name then v :: rest else cp :: overwriteEntry v rest

/-- The status markCheckpointComplete persists for a checkpoint. -/
def completionStatus (c : CheckpointName) : DeploymentStatus :=
  if c = .completed then .deployed else .configuring

/-- The progress percentage reported for a checkpoint. -/
def progressOf (c : CheckpointName) : ℚ :=
  (orderIndex c : ℚ) / ((CHECKPOINT_ORDER.length : ℚ) - 1) * 100

theorem execPass_nil (env : Env) (rs : RunState) :
    execPass env [] rs = .finished (.success (persist rs
      (updateDeploymentState rs.state
        { status := some .deployed, deployedAt := some (toString rs.clock) }
        (toString rs.clock)))) := rfl

theorem execPass_cons (env : Env) (c : CheckpointName)
    (rest : List CheckpointName) (rs : RunState) :
    execPass env (c :: rest) rs =
      match runWhile env c (MAX_RETRIES - getCheckpointRetryCount rs.state c)
          (getCheckpointRetryCount rs.state c)
          (reportProgress rs c (getCheckpointDescription c)) with
      | .moveOn rs2 => execPass env rest rs2
      | .thrown rs2 e => .finished (.error rs2 e)
      | .restart rs2 => .restartRequested rs2 := rfl

theorem execFrom_of_execPass_finished (env : Env) (fuel : Nat)
    (cps : List CheckpointName) (rs : RunState) (r : RunResult)
    (h : execPass env cps rs = .finished r) :
    execFrom env fuel cps rs = r := by
  cases fuel <;> simp [execFrom, h]

/-- The persisted write performed after a failed attempt (lines 266-269):
merge the error message and status=failed into the state. -/
def failedWrite (s : DeploymentState) (err : String) (now : String) :
    DeploymentState :=
  updateDeploymentState s
    { lastError := some (some err), status := some .failed } now

/-- At most one ledger entry per checkpoint name. -/
abbrev NodupLedger (s : DeploymentState) : Prop :=
  (ledgerNames s.checkpoints).Nodup

/-- The running context carried by a step-loop result. -/
def StepLoopResult.ctx : StepLoopResult → RunState
  | .moveOn rs => rs
  | .restart rs => rs
  | .thrown rs _ => rs

/-- The running context carried by a pass result. -/
def PassResult.ctx : PassResult → RunState
  | .finished r => r.ctx
  | .restartRequested rs => rs

/-! ### Concrete fixtures for counterexamples and witnesses -/

/-- Environment whose steps all succeed and whose confirmations are all
declined. -/
def envAllOk : Env :=
  { stepOutcome := fun _ _ => none, confirmAnswer := fun _ => false }

/-- Environment whose steps all throw "boom" and whose confirmations are
all declined. -/
def envAlwaysBoom : Env :=
  { stepOutcome := fun _ _ => some ("boom"), confirmAnswer := fun _ => false }

/-- Environment failing ssh_key_uploaded on its first three executions and
confirming the restart. -/
def envFailThenRestart : Env :=
  { stepOutcome := fun c t =>
      if c = .ssh_key_uploaded ∧ t < 3 then some ("boom") else none
  , confirmAnswer := fun _ => true }

/-- A deployment state holding all 16 checkpoints of the fixed order. -/
def fullLedgerState : DeploymentState :=
  prefixState 16 .deployed (fun _ => "t") (fun _ => 0)

/-- A deployment state holding only the server_created checkpoint. -/
def oneCheckpointState : DeploymentState :=
  prefixState 1 .configuring (fun _ => "t") (fun _ => 0)

/-- A legacy ledger entry outside the active fixed order. -/
def legacyEntry : Checkpoint :=
  { name := .channel_paired, completedAt := "t", retryCount := 0 }

/-- A deployment state holding only the legacy out-of-order entry. -/
def legacyState : DeploymentState :=
  { status := .configuring, checkpoints := [legacyEntry] }

/-- Ledger entries used by the C4 storage-order witness. -/
def cpA : Checkpoint :=
  { name := .server_created, completedAt := "t1", retryCount := 0 }

/-- Second ledger entry used by the C4 storage-order witness. -/
def cpB : Checkpoint :=
  { name := .ssh_connected, completedAt := "t0", retryCount := 0 }

/-! ### Basic facts about the fixed order and its index function -/

theorem order_length : CHECKPOINT_ORDER.length = 16 := by decide

theorem order_nodup : CHECKPOINT_ORDER.Nodup := by decide

theorem orderIndex_mem_nonneg {n : CheckpointName} (h : n ∈ CHECKPOINT_ORDER) :
    0 ≤ orderIndex n := by
  revert h; revert n; decide

theorem orderIndex_not_mem {n : CheckpointName} (h : n ∉ CHECKPOINT_ORDER) :
    orderIndex n = -1 := by
  revert h; revert n; decide

theorem orderIndex_inj {a b : CheckpointName} (ha : a ∈ CHECKPOINT_ORDER)
    (hb : b ∈ CHECKPOINT_ORDER) (h : orderIndex a = orderIndex b) : a = b := by
  revert ha hb h; revert a b; decide

theorem order_pairwise :
    CHECKPOINT_ORDER.Pairwise (fun a b => orderIndex a ≤ orderIndex b) := by
  decide

theorem orderIndex_getD (i : Fin 16) :
    orderIndex (CHECKPOINT_ORDER.getD (i : Nat) .completed) = (i : Nat) := by
  revert i; decide

theorem getD_mem_order (i : Fin 16) :
    CHECKPOINT_ORDER.getD (i : Nat) .completed ∈ CHECKPOINT_ORDER := by
  revert i; decide

/-! ### The overwrite-in-place ledger write -/

theorem findIdx_set_eq_overwriteEntry (v : Checkpoint) (l : List Checkpoint) :
    (match l.findIdx? (fun cp => decide (cp.name = v.name)) with
      | some i => l.set i v
      | none => l ++ [v]) = overwriteEntry v l := by
  induction l with
  | nil => simp [overwriteEntry]
  | cons cp rest ih =>
    by_cases h : cp.name = v.name
    · simp [List.findIdx?_cons, h, overwriteEntry]
    · simp only [List.findIdx?_cons, decide_eq_true_eq, h, if_false,
        List.findIdx?_succ, overwriteEntry]
      cases hfind : rest.findIdx? (fun cp => decide (cp.name = v.name)) with
      | none => simpa [hfind] using by simpa [hfind] using ih
      | some i => simpa [hfind] using by simpa [hfind] using ih

theorem markCheckpointComplete_checkpoints (state : DeploymentState)
    (c : CheckpointName) (rc : Nat) (now : String) :
    (markCheckpointComplete state c rc now).checkpoints =
      overwriteEntry { name := c, completedAt := now, retryCount := rc }
        state.checkpoints := by
  unfold markCheckpointComplete
  rw [← findIdx_set_eq_overwriteEntry]
  rfl

theorem ledgerNames_overwriteEntry (v : Checkpoint) (l : List Checkpoint) :
    ledgerNames (overwriteEntry v l) =
      if v.name ∈ ledgerNames l then ledgerNames l
      else ledgerNames l ++ [v.name] := by
  induction l with
  | nil => simp [overwriteEntry, ledgerNames]
  | cons cp rest ih =>
    by_cases h : cp.name = v.name
    · simp [overwriteEntry, h, ledgerNames]
    · simp only [overwriteEntry, h, if_false, ledgerNames, List.map_cons,
        List.mem_cons]
      have hne : ¬ v.name = cp.name := fun hv => h hv.symm
      simp only [ledgerNames] at ih
      by_cases hmem : v.name ∈ rest.map (fun cp => cp.name)
      · simp [hmem, hne, ih]
      · simp [hmem, hne, ih]

theorem find_overwriteEntry (v : Checkpoint) (l : List Checkpoint)
    (c : CheckpointName) :
    (overwriteEntry v l).find? (fun cp => decide (cp.name = c)) =
      if c = v.name then some v
      else l.find? (fun cp => decide (cp.name = c)) := by
  induction l with
  | nil =>
    by_cases hc : c = v.name
    · simp [overwriteEntry, hc]
    · have h1 : ¬ v.name = c := fun hv => hc hv.symm
      simp [overwriteEntry, hc, h1]
  | cons cp rest ih =>
    by_cases h : cp.name = v.name
    · by_cases hc : c = v.name
      · simp [overwriteEntry, h, hc]
      · have h1 : ¬ v.name = c := fun hv => hc hv.symm
        have h2 : ¬ cp.name = c := fun hv => hc ((h.symm.trans hv).symm)
        simp [overwriteEntry, h, hc, h1, h2]
    · by_cases hcp : cp.name = c
      · have hc : ¬ c = v.name := fun hv => h (hcp.trans hv)
        simp [overwriteEntry, h, hcp, hc]
      · simp [overwriteEntry, h, hcp, ih]

theorem getCheckpointRetryCount_mark (state : DeploymentState)
    (c : CheckpointName) (rc : Nat) (now : String) (c' : CheckpointName) :
    getCheckpointRetryCount (markCheckpointComplete state c rc now) c' =
      if c' = c then rc else getCheckpointRetryCount state c' := by
  unfold getCheckpointRetryCount
  rw [markCheckpointComplete_checkpoints, find_overwriteEntry]
  by_cases h : c' = c <;> simp [h]

/-! ### Characterization of getLastCheckpoint -/

theorem mem_le_of_getLast {α : Type} {r : α → α → Prop} :
    ∀ {l : List α} {m x : α}, l.Pairwise r → l.getLast? = some m → x ∈ l →
      x = m ∨ r x m := by
  intro l
  induction l with
  | nil => intro m x _ h _; simp at h
  | cons a t ih =>
    intro m x hp h hx
    cases t with
    | nil =>
      simp at h hx
      left; rw [hx, h]
    | cons b u =>
      rw [List.getLast?_cons_cons] at h
      rcases List.mem_cons.mp hx with rfl | hx2
      · right
        have hm : m ∈ b :: u :=
          List.mem_of_mem_getLast? (h ▸ Option.mem_def.mpr rfl)
        exact (List.pairwise_cons.mp hp).1 m hm
      · exact ih (List.pairwise_cons.mp hp).2 h hx2

theorem getLastCheckpoint_eq_none_iff (s : DeploymentState) :
    getLastCheckpoint s = none ↔
      ∀ cp ∈ s.checkpoints, cp.name ∉ CHECKPOINT_ORDER := by
  unfold getLastCheckpoint
  by_cases hnil : s.checkpoints = []
  · simp [hnil]
  · simp only [hnil, if_false]
    constructor
    · intro h cp hcp hmem
      have h2 := Option.map_eq_none'.mp h
      have hfl : cp ∈ s.checkpoints.filter
          (fun cp => decide (cp.name ∈ CHECKPOINT_ORDER)) :=
        List.mem_filter.mpr ⟨hcp, by simpa using hmem⟩
      have hsorted : cp ∈ List.insertionSort cpLe
          (s.checkpoints.filter (fun cp => decide (cp.name ∈ CHECKPOINT_ORDER))) :=
        (List.perm_insertionSort cpLe _).mem_iff.mpr hfl
      exact List.ne_nil_of_mem hsorted (List.getLast?_eq_none_iff.mp h2)
    · intro h
      have hfl : s.checkpoints.filter
          (fun cp => decide (cp.name ∈ CHECKPOINT_ORDER)) = [] := by
        rw [List.filter_eq_nil_iff]
        intro cp hcp
        simpa using h cp hcp
      rw [hfl]
      simp [List.insertionSort]

theorem getLastCheckpoint_max (s : DeploymentState) (m : CheckpointName)
    (h : getLastCheckpoint s = some m) :
    m ∈ CHECKPOINT_ORDER ∧ m ∈ ledgerNames s.checkpoints ∧
      ∀ n ∈ ledgerNames s.checkpoints, n ∈ CHECKPOINT_ORDER →
        orderIndex n ≤ orderIndex m := by
  have hnil : ¬ s.checkpoints = [] := by
    intro hn
    rw [getLastCheckpoint, if_pos hn] at h
    exact Option.noConfusion h
  rw [getLastCheckpoint, if_neg hnil] at h
  rcases Option.map_eq_some.mp h with ⟨cp, hlast, rfl⟩
  have hsortmem : cp ∈ List.insertionSort cpLe
      (s.checkpoints.filter (fun cp => decide (cp.name ∈ CHECKPOINT_ORDER))) :=
    List.mem_of_mem_getLast? (hlast ▸ Option.mem_def.mpr rfl)
  have hflmem : cp ∈ s.checkpoints.filter
      (fun cp => decide (cp.name ∈ CHECKPOINT_ORDER)) :=
    (List.perm_insertionSort cpLe _).mem_iff.mp hsortmem
  have hcpmem := (List.mem_filter.mp hflmem).1
  have hcporder : cp.name ∈ CHECKPOINT_ORDER := by
    have := (List.mem_filter.mp hflmem).2
    simpa using this
  refine ⟨hcporder, List.mem_map_of_mem _ hcpmem, ?_⟩
  intro n hn hnorder
  rcases List.mem_map.mp hn with ⟨e, he, rfl⟩
  have hefl : e ∈ s.checkpoints.filter
      (fun cp => decide (cp.name ∈ CHECKPOINT_ORDER)) :=
    List.mem_filter.mpr ⟨he, by simpa using hnorder⟩
  have hesort : e ∈ List.insertionSort cpLe
      (s.checkpoints.filter (fun cp => decide (cp.name ∈ CHECKPOINT_ORDER))) :=
    (List.perm_insertionSort cpLe _).mem_iff.mpr hefl
  have hpair : (List.insertionSort cpLe
      (s.checkpoints.filter (fun cp => decide (cp.name ∈ CHECKPOINT_ORDER)))).Pairwise cpLe :=
    List.sorted_insertionSort cpLe _
  rcases mem_le_of_getLast hpair hlast hesort with rfl | hle
  · exact le_refl _
  · exact hle

theorem getLastCheckpoint_eq_some_iff (s : DeploymentState)
    (m : CheckpointName) :
    getLastCheckpoint s = some m ↔
      (m ∈ CHECKPOINT_ORDER ∧ m ∈ ledgerNames s.checkpoints ∧
        ∀ n ∈ ledgerNames s.checkpoints, n ∈ CHECKPOINT_ORDER →
          orderIndex n ≤ orderIndex m) := by
  constructor
  · exact getLastCheckpoint_max s m
  · rintro ⟨hmo, hmn, hmax⟩
    rcases List.mem_map.mp hmn with ⟨e, he, hen⟩
    have hex : ∃ m', getLastCheckpoint s = some m' := by
      have hfl : e ∈ s.checkpoints.filter
          (fun cp => decide (cp.name ∈ CHECKPOINT_ORDER)) :=
        List.mem_filter.mpr ⟨he, by simpa [hen] using hmo⟩
      have hsort : e ∈ List.insertionSort cpLe
          (s.checkpoints.filter (fun cp => decide (cp.name ∈ CHECKPOINT_ORDER))) :=
        (List.perm_insertionSort cpLe _).mem_iff.mpr hfl
      have hnonempty : List.insertionSort cpLe
          (s.checkpoints.filter (fun cp => decide (cp.name ∈ CHECKPOINT_ORDER))) ≠ [] :=
        List.ne_nil_of_mem hsort
      have hnil : ¬ s.checkpoints = [] := List.ne_nil_of_mem he
      rcases Option.isSome_iff_exists.mp (List.getLast?_isSome.mpr hnonempty) with ⟨cp, hcp⟩
      refine ⟨cp.name, ?_⟩
      rw [getLastCheckpoint, if_neg hnil]
      simp only []
      rw [hcp]
      rfl
    rcases hex with ⟨m', hm'⟩
    have hspec := getLastCheckpoint_max s m' hm'
    have h1 : orderIndex m ≤ orderIndex m' := hspec.2.2 m hmn hmo
    have h2 : orderIndex m' ≤ orderIndex m := hmax m' hspec.2.1 hspec.1
    have heq : m = m' := orderIndex_inj hmo hspec.1 (le_antisymm h1 h2)
    rw [heq]
    exact hm'

/-! ### Trace projection lemmas -/

theorem executedSteps_append (a b : List Event) :
    executedSteps (a ++ b) = executedSteps a ++ executedSteps b := by
  induction a with
  | nil => rfl
  | cons e t ih => cases e <;> simp [executedSteps, ih]

theorem persistedStatuses_append (a b : List Event) :
    persistedStatuses (a ++ b) = persistedStatuses a ++ persistedStatuses b := by
  induction a with
  | nil => rfl
  | cons e t ih => cases e <;> simp [persistedStatuses, ih]

theorem progressValues_append (a b : List Event) :
    progressValues (a ++ b) = progressValues a ++ progressValues b := by
  induction a with
  | nil => rfl
  | cons e t ih => cases e <;> simp [progressValues, ih]

theorem confirmMessages_append (a b : List Event) :
    confirmMessages (a ++ b) = confirmMessages a ++ confirmMessages b := by
  induction a with
  | nil => rfl
  | cons e t ih => cases e <;> simp [confirmMessages, ih]

theorem persistedStates_append (a b : List Event) :
    persistedStates (a ++ b) = persistedStates a ++ persistedStates b := by
  induction a with
  | nil => rfl
  | cons e t ih => cases e <;> simp [persistedStates, ih]

/-! ### Simple facts about the ledger operations -/

theorem markCheckpointComplete_status (s : DeploymentState)
    (c : CheckpointName) (rc : Nat) (now : String) :
    (markCheckpointComplete s c rc now).status =
      (if c = .completed then .deployed else .configuring) := by
  rfl

theorem getCheckpointRetryCount_eq_zero_of_not_mem (s : DeploymentState)
    (c : CheckpointName) (h : c ∉ ledgerNames s.checkpoints) :
    getCheckpointRetryCount s c = 0 := by
  unfold getCheckpointRetryCount
  have : s.checkpoints.find? (fun cp => decide (cp.name = c)) = none := by
    rw [List.find?_eq_none]
    intro cp hcp
    simp only [decide_eq_true_eq]
    intro hn
    exact h (hn ▸ List.mem_map_of_mem _ hcp)
  rw [this]

/-! ### The prefix-ledger deployment states -/

theorem prefixState_names (k : Nat) (status : DeploymentStatus)
    (ts : CheckpointName → String) (rc : CheckpointName → Nat) :
    ledgerNames (prefixState k status ts rc).checkpoints =
      CHECKPOINT_ORDER.take k := by
  unfold prefixState ledgerNames
  rw [List.map_map]
  have hcomp : ((fun cp => cp.name) ∘ fun n : CheckpointName =>
      ({ name := n, completedAt := ts n, retryCount := rc n } : Checkpoint)) =
      fun n => n := rfl
  rw [hcomp, List.map_id']

theorem getLastCheckpoint_prefixState (k : Nat) (hk1 : 1 ≤ k) (hk : k ≤ 16)
    (status : DeploymentStatus) (ts : CheckpointName → String)
    (rc : CheckpointName → Nat) :
    getLastCheckpoint (prefixState k status ts rc) =
      some (CHECKPOINT_ORDER.getD (k - 1) .completed) := by
  have hkm : k - 1 < 16 := by omega
  have hmem := getD_mem_order ⟨k - 1, hkm⟩
  have hidx := orderIndex_getD ⟨k - 1, hkm⟩
  rw [getLastCheckpoint_eq_some_iff]
  refine ⟨hmem, ?_, ?_⟩
  · rw [prefixState_names]
    have hlt : k - 1 < CHECKPOINT_ORDER.length := by rw [order_length]; omega
    have : CHECKPOINT_ORDER.getD (k - 1) .completed =
        CHECKPOINT_ORDER.get ⟨k - 1, hlt⟩ := by
      rw [List.getD_eq_getElem?_getD, List.getElem?_eq_getElem hlt]
      rfl
    rw [this]
    rw [List.mem_take_iff_getElem]
    exact ⟨k - 1, by omega, by simp⟩
  · intro n hn hno
    rw [prefixState_names] at hn
    rw [List.mem_take_iff_getElem] at hn
    rcases hn with ⟨i, hi, hget⟩
    have hi16 : i < 16 := by
      have := hi
      rw [order_length] at this
      omega
    have : CHECKPOINT_ORDER.getD i .completed = n := by
      rw [List.getD_eq_getElem?_getD,
        List.getElem?_eq_getElem (by rw [order_length]; exact hi16)]
      simpa using hget
    have hidxn := orderIndex_getD ⟨i, hi16⟩
    rw [this] at hidxn
    rw [hidxn, hidx]
    have : i ≤ k - 1 := by omega
    exact_mod_cast this

theorem getNextCheckpoint_prefixState (k : Nat) (hk : k < 16)
    (status : DeploymentStatus) (ts : CheckpointName → String)
    (rc : CheckpointName → Nat) :
    getNextCheckpoint (prefixState k status ts rc) =
      CHECKPOINT_ORDER.getD k .completed := by
  rcases Nat.eq_zero_or_pos k with h0 | hpos
  · subst h0
    rfl
  · have hkm : k - 1 < 16 := by omega
    have hidx := orderIndex_getD ⟨k - 1, hkm⟩
    unfold getNextCheckpoint
    rw [getLastCheckpoint_prefixState k hpos (by omega) status ts rc]
    simp only [orderIndex] at hidx
    simp only [hidx, order_length]
    have hc1 : ¬ (((k - 1 : Nat) : Int) = -1) := by omega
    have hc2 : ¬ (((k - 1 : Nat) : Int) ≥ (16 : Int) - 1) := by omega
    rw [if_neg (by push_neg; exact ⟨hc1, by omega⟩)]
    have harith : (((k - 1 : Nat) : Int) + 1).toNat = k := by omega
    rw [harith]

/-! ### Failure-free runs -/

theorem execPass_all_success (env : Env)
    (hok : ∀ c t, env.stepOutcome c t = none) :
    ∀ (cps : List CheckpointName) (rs : RunState),
      (∀ c ∈ cps, getCheckpointRetryCount rs.state c < MAX_RETRIES) →
      ∃ rs', execPass env cps rs = .finished (.success rs') ∧
        executedSteps rs'.trace = executedSteps rs.trace ++ cps ∧
        persistedStatuses rs'.trace = persistedStatuses rs.trace ++
          cps.map completionStatus ++ [.deployed] ∧
        progressValues rs'.trace = progressValues rs.trace ++
          cps.map progressOf := by
  intro cps
  induction cps with
  | nil =>
    intro rs _
    refine ⟨_, execPass_nil env rs, ?_, ?_, ?_⟩ <;>
      simp [persist, executedSteps_append, persistedStatuses_append,
        progressValues_append, executedSteps, persistedStatuses,
        progressValues, updateDeploymentState]
  | cons c rest ih =>
    intro rs h
    have hc : getCheckpointRetryCount rs.state c < MAX_RETRIES :=
      h c (List.mem_cons_self c rest)
    obtain ⟨f', hf'⟩ : ∃ f',
        MAX_RETRIES - getCheckpointRetryCount rs.state c = f' + 1 :=
      ⟨MAX_RETRIES - getCheckpointRetryCount rs.state c - 1, by omega⟩
    have hstate1 : (reportProgress rs c (getCheckpointDescription c)).state
        = rs.state := rfl
    have hrun : runWhile env c
        (MAX_RETRIES - getCheckpointRetryCount rs.state c)
        (getCheckpointRetryCount rs.state c)
        (reportProgress rs c (getCheckpointDescription c)) =
        .moveOn (persist
          { reportProgress rs c (getCheckpointDescription c) with
            trace := (reportProgress rs c (getCheckpointDescription c)).trace
              ++ [Event.stepExecuted c true],
            time := (reportProgress rs c (getCheckpointDescription c)).time + 1 }
          (markCheckpointComplete rs.state c
            (getCheckpointRetryCount rs.state c)
            (toString (reportProgress rs c (getCheckpointDescription c)).clock))) := by
      rw [hf']
      unfold runWhile
      rw [hok c (reportProgress rs c (getCheckpointDescription c)).time]
      rfl
    set rs2 := persist
      { reportProgress rs c (getCheckpointDescription c) with
        trace := (reportProgress rs c (getCheckpointDescription c)).trace
          ++ [Event.stepExecuted c true],
        time := (reportProgress rs c (getCheckpointDescription c)).time + 1 }
      (markCheckpointComplete rs.state c (getCheckpointRetryCount rs.state c)
        (toString (reportProgress rs c (getCheckpointDescription c)).clock))
      with hrs2
    have hexec : execPass env (c :: rest) rs = execPass env rest rs2 := by
      rw [execPass_cons, hrun]
    have hstate2 : rs2.state = markCheckpointComplete rs.state c
        (getCheckpointRetryCount rs.state c)
        (toString (reportProgress rs c (getCheckpointDescription c)).clock) := rfl
    have htrace2 : rs2.trace = rs.trace ++
        [Event.progressReport
          { currentStep := c
          , completedSteps := rs.state.checkpoints.map (fun cp => cp.name)
          , totalSteps := CHECKPOINT_ORDER.length
          , progress := progressOf c
          , message := getCheckpointDescription c }
        , Event.stepExecuted c true
        , Event.persisted (markCheckpointComplete rs.state c
            (getCheckpointRetryCount rs.state c)
            (toString (reportProgress rs c (getCheckpointDescription c)).clock))] := by
      simp [hrs2, persist, reportProgress, progressOf, orderIndex]
    have hinv : ∀ c' ∈ rest, getCheckpointRetryCount rs2.state c' < MAX_RETRIES := by
      intro c' hc'
      rw [hstate2, getCheckpointRetryCount_mark]
      by_cases hcc : c' = c
      · simpa [hcc] using hc
      · rw [if_neg hcc]
        exact h c' (List.mem_cons_of_mem c hc')
    rcases ih rs2 hinv with ⟨rs', hres, hsteps, hstat, hprog⟩
    refine ⟨rs', by rw [hexec]; exact hres, ?_, ?_, ?_⟩
    · rw [hsteps, htrace2]
      simp [executedSteps_append, executedSteps]
    · rw [hstat, htrace2]
      simp [persistedStatuses_append, persistedStatuses,
        markCheckpointComplete_status, completionStatus]
    · rw [hprog, htrace2]
      simp [progressValues_append, progressValues]

theorem updateStatus_checkpoints (s : DeploymentState)
    (st : DeploymentStatus) (now : String) :
    (updateDeploymentState s { status := some st } now).checkpoints =
      s.checkpoints := rfl

theorem deploy_prefixState (k : Nat) (hk : k < 16)
    (status : DeploymentStatus) (ts : CheckpointName → String)
    (rc : CheckpointName → Nat) (env : Env) (fuel : Nat)
    (hok : ∀ c t, env.stepOutcome c t = none) :
    ∃ rs', deploy env fuel { state := prefixState k status ts rc } =
        .success rs' ∧
      executedSteps rs'.trace = CHECKPOINT_ORDER.drop k ∧
      persistedStatuses rs'.trace = .provisioning ::
        ((CHECKPOINT_ORDER.drop k).map completionStatus ++ [.deployed]) ∧
      progressValues rs'.trace = (CHECKPOINT_ORDER.drop k).map progressOf := by
  have hnext := getNextCheckpoint_prefixState k hk status ts rc
  have hidx := orderIndex_getD ⟨k, hk⟩
  simp only [orderIndex] at hidx
  have hdeploy : deploy env fuel { state := prefixState k status ts rc } =
      execFrom env fuel (CHECKPOINT_ORDER.drop k)
        (persist { state := prefixState k status ts rc }
          (updateDeploymentState (prefixState k status ts rc)
            { status := some .provisioning } (toString 0))) := by
    unfold deploy executeFromCheckpoint
    rw [hnext]
    simp only [hidx, Int.toNat_natCast]
  set rs1 := persist { state := prefixState k status ts rc }
    (updateDeploymentState (prefixState k status ts rc)
      { status := some .provisioning } (toString 0)) with hrs1
  have hcount : ∀ c ∈ CHECKPOINT_ORDER.drop k,
      getCheckpointRetryCount rs1.state c < MAX_RETRIES := by
    intro c hcmem
    have hdisj : (CHECKPOINT_ORDER.take k).Disjoint (CHECKPOINT_ORDER.drop k) :=
      List.disjoint_take_drop order_nodup (le_refl k)
    have hnotin : c ∉ ledgerNames rs1.state.checkpoints := by
      have : rs1.state.checkpoints = (prefixState k status ts rc).checkpoints := rfl
      rw [this]
      have hnames := prefixState_names k status ts rc
      rw [hnames]
      intro hmem
      exact hdisj hmem hcmem
    rw [getCheckpointRetryCount_eq_zero_of_not_mem _ _ hnotin]
    decide
  rcases execPass_all_success env hok (CHECKPOINT_ORDER.drop k) rs1 hcount
    with ⟨rs', hres, hsteps, hstat, hprog⟩
  refine ⟨rs', by
    rw [hdeploy]
    exact execFrom_of_execPass_finished env fuel _ rs1 _ hres, ?_, ?_, ?_⟩
  · rw [hsteps]
    simp [hrs1, persist, executedSteps]
  · rw [hstat]
    simp [hrs1, persist, persistedStatuses, updateDeploymentState]
  · rw [hprog]
    simp [hrs1, persist, progressValues]

theorem getLastCheckpoint_isSome_of_mem (s : DeploymentState)
    (cp : Checkpoint) (hcp : cp ∈ s.checkpoints)
    (hord : cp.name ∈ CHECKPOINT_ORDER) :
    ∃ m, getLastCheckpoint s = some m := by
  have hfl : cp ∈ s.checkpoints.filter
      (fun cp => decide (cp.name ∈ CHECKPOINT_ORDER)) :=
    List.mem_filter.mpr ⟨hcp, by simpa using hord⟩
  have hsort : cp ∈ List.insertionSort cpLe
      (s.checkpoints.filter (fun cp => decide (cp.name ∈ CHECKPOINT_ORDER))) :=
    (List.perm_insertionSort cpLe _).mem_iff.mpr hfl
  have hnonempty : List.insertionSort cpLe
      (s.checkpoints.filter (fun cp => decide (cp.name ∈ CHECKPOINT_ORDER))) ≠ [] :=
    List.ne_nil_of_mem hsort
  have hnil : ¬ s.checkpoints = [] := List.ne_nil_of_mem hcp
  rcases Option.isSome_iff_exists.mp (List.getLast?_isSome.mpr hnonempty)
    with ⟨e, he⟩
  refine ⟨e.name, ?_⟩
  rw [getLastCheckpoint, if_neg hnil]
  simp only []
  rw [he]
  rfl

/-- C4: getLastCheckpoint returns null on an empty ledger; any returned
name is an entry's name bearing the highest fixed-order index among the
entries whose name is in the fixed order; a result exists whenever such an
entry exists; and the result is independent of the storage order of the
checkpoints array (hence not necessarily the most recently written
entry). -/
theorem claim4_getLastCheckpoint_highest_order_any_storage
    (s : DeploymentState) :
    (s.checkpoints = [] → getLastCheckpoint s = none) ∧
    (∀ m, getLastCheckpoint s = some m →
      m ∈ ledgerNames s.checkpoints ∧ m ∈ CHECKPOINT_ORDER ∧
      ∀ n ∈ ledgerNames s.checkpoints, n ∈ CHECKPOINT_ORDER →
        orderIndex n ≤ orderIndex m) ∧
    (∀ cp ∈ s.checkpoints, cp.name ∈ CHECKPOINT_ORDER →
      ∃ m, getLastCheckpoint s = some m) ∧
    (∀ l2, s.checkpoints.Perm l2 →
      getLastCheckpoint { s with checkpoints := l2 } = getLastCheckpoint s) := by
  refine ⟨?_, ?_, ?_, ?_⟩
  · intro h
    rw [getLastCheckpoint, if_pos h]
  · intro m hm
    have h := getLastCheckpoint_max s m hm
    exact ⟨h.2.1, h.1, h.2.2⟩
  · intro cp hcp hord
    exact getLastCheckpoint_isSome_of_mem s cp hcp hord
  · intro l2 hperm
    rcases hcase : getLastCheckpoint s with _ | m
    · rw [getLastCheckpoint_eq_none_iff] at hcase
      rw [getLastCheckpoint_eq_none_iff]
      intro cp hcp
      exact hcase cp (hperm.mem_iff.mpr hcp)
    · rw [getLastCheckpoint_eq_some_iff] at hcase
      obtain ⟨h1, h2, h3⟩ := hcase
      rw [getLastCheckpoint_eq_some_iff]
      refine ⟨h1, ?_, ?_⟩
      · exact ((hperm.map (fun cp => cp.name)).mem_iff).mp h2
      · intro n hn hno
        exact h3 n (((hperm.map (fun cp => cp.name)).mem_iff).mpr hn) hno

/-- C7: resetToCheckpoint keeps exactly the entries whose fixed-order
index (the JS indexOf result, -1 for names outside the order) is strictly
below the target's, sets status to configuring when any entries remain and
to initialized otherwise, clears lastError, and leaves the other persisted
fields (serverId, serverIp, tailscaleIp, sshKeyId, sshKeyFingerprint,
deployedAt) unchanged. -/
theorem claim7_resetToCheckpoint_truncates (s : DeploymentState)
    (target : CheckpointName) (now : String) :
    (resetToCheckpoint s target now).checkpoints =
      s.checkpoints.filter
        (fun cp => decide (orderIndex cp.name < orderIndex target)) ∧
    (resetToCheckpoint s target now).status =
      (if (s.checkpoints.filter
          (fun cp => decide (orderIndex cp.name < orderIndex target))).length > 0
        then .configuring else .initialized) ∧
    (resetToCheckpoint s target now).lastError = none ∧
    (resetToCheckpoint s target now).serverId = s.serverId ∧
    (resetToCheckpoint s target now).serverIp = s.serverIp ∧
    (resetToCheckpoint s target now).tailscaleIp = s.tailscaleIp ∧
    (resetToCheckpoint s target now).sshKeyId = s.sshKeyId ∧
    (resetToCheckpoint s target now).sshKeyFingerprint = s.sshKeyFingerprint ∧
    (resetToCheckpoint s target now).deployedAt = s.deployedAt := by
  refine ⟨rfl, rfl, rfl, rfl, rfl, rfl, rfl, rfl, rfl⟩

/-- C9: validateAPIKey returns false exactly when the authenticated read
produced a non-ok HTTP response whose error id resolves to "unauthorized";
it returns true when the read succeeds; a transport (network) exception
propagates to the caller, and so does an API error with any other code —
neither is converted into a false return. -/
theorem claim9_validateAPIKey_unauthorized_only (o : FetchOutcome) :
    (validateAPIKey o = .ok false ↔
      (∃ r, o = .response r ∧ r.status ≠ 204 ∧ r.ok = false ∧
        r.id.getD ("unknown") = "unauthorized")) ∧
    (doRequest o = .ok () → validateAPIKey o = .ok true) ∧
    (∀ e, o = .networkError e → validateAPIKey o = .error (.network e)) ∧
    (∀ code msg sc, doRequest o = .error (.api code msg sc) →
      code ≠ "unauthorized" → validateAPIKey o = .error (.api code msg sc)) := by
  refine ⟨?_, ?_, ?_, ?_⟩
  · constructor
    · intro h
      cases o with
      | networkError e => simp [validateAPIKey, doRequest] at h
      | response r =>
        by_cases h204 : r.status = 204
        · simp [validateAPIKey, doRequest, h204] at h
        · by_cases hok : r.ok
          · simp [validateAPIKey, doRequest, h204, hok] at h
          · by_cases hid : r.id.getD ("unknown") = "unauthorized"
            · exact ⟨r, rfl, h204, by simpa using hok, hid⟩
            · simp [validateAPIKey, doRequest, h204, hok, hid] at h
    · rintro ⟨r, rfl, h204, hok, hid⟩
      simp [validateAPIKey, doRequest, h204, hok, hid]
  · intro h
    cases o with
    | networkError e => simp [doRequest] at h
    | response r => simp [validateAPIKey, h]
  · rintro e rfl
    rfl
  · intro code msg sc h hne
    cases o with
    | networkError e => simp [doRequest] at h
    | response r =>
      simp [validateAPIKey, h]
      intro hcode
      exact absurd hcode hne

/-- C10 (amended): ledger entries whose name is outside the active fixed
order (the legacy channel_paired value) are invisible to resume — a ledger
holding only such entries yields no last checkpoint and resumes from
server_created — and resetToCheckpoint retains every such entry for every
target that has an index in the fixed order, including the very first
checkpoint; a reset whose target is itself outside the order (only
channel_paired) removes them instead. -/
theorem claim10_out_of_order_entries (s : DeploymentState) (now : String) :
    ((∀ cp ∈ s.checkpoints, cp.name ∉ CHECKPOINT_ORDER) →
      getLastCheckpoint s = none ∧ getNextCheckpoint s = .server_created) ∧
    (∀ target ∈ CHECKPOINT_ORDER, ∀ cp ∈ s.checkpoints,
      cp.name ∉ CHECKPOINT_ORDER →
      cp ∈ (resetToCheckpoint s target now).checkpoints) := by
  constructor
  · intro h
    have hnone : getLastCheckpoint s = none :=
      (getLastCheckpoint_eq_none_iff s).mpr h
    refine ⟨hnone, ?_⟩
    rw [getNextCheckpoint, hnone]
    rfl
  · intro target htarget cp hcp hout
    have hidx : orderIndex cp.name = -1 := orderIndex_not_mem hout
    have htidx : 0 ≤ orderIndex target := orderIndex_mem_nonneg htarget
    refine List.mem_filter.mpr ⟨hcp, ?_⟩
    simp only [decide_eq_true_eq, orderIndex] at hidx htidx ⊢
    omega

theorem runWhile_exhausted (env : Env) (c : CheckpointName)
    (errF : Nat → String)
    (hthrow : ∀ t, env.stepOutcome c t = some (errF t)) (rs : RunState) :
    runWhile env c (MAX_RETRIES - 0) 0 rs =
      (let d := getCheckpointDescription c
       let st1 := failedWrite rs.state (errF rs.time) (toString rs.clock)
       let st2 := failedWrite st1 (errF (rs.time + 1)) (toString (rs.clock + 1))
       let st3 := failedWrite st2 (errF (rs.time + 2)) (toString (rs.clock + 2))
       let msg := exhaustedConfirmMessage d (errF (rs.time + 2))
       let ans := env.confirmAnswer rs.confirms
       let rsEnd : RunState :=
         { state := st3
         , trace := rs.trace ++
             [ Event.stepExecuted c false
             , Event.persisted st1
             , Event.progressReport
                 { currentStep := c
                 , completedSteps := st1.checkpoints.map (fun cp => cp.name)
                 , totalSteps := CHECKPOINT_ORDER.length
                 , progress := progressOf c
                 , message := d ++ " failed (attempt " ++ toString 1 ++ "/"
                     ++ toString MAX_RETRIES ++ "), retrying..." }
             , Event.stepExecuted c false
             , Event.persisted st2
             , Event.progressReport
                 { currentStep := c
                 , completedSteps := st2.checkpoints.map (fun cp => cp.name)
                 , totalSteps := CHECKPOINT_ORDER.length
                 , progress := progressOf c
                 , message := d ++ " failed (attempt " ++ toString 2 ++ "/"
                     ++ toString MAX_RETRIES ++ "), retrying..." }
             , Event.stepExecuted c false
             , Event.persisted st3
             , Event.confirmAsked msg ans ]
         , time := rs.time + 3
         , confirms := rs.confirms + 1
         , clock := rs.clock + 3 }
       if ans then .restart rsEnd
       else .thrown rsEnd
         { message := terminalErrorMessage d (errF (rs.time + 2))
         , checkpoint := c
         , retryCount := MAX_RETRIES
         , recoverable := false }) := by
  show runWhile env c (2 + 1) 0 rs = _
  rw [runWhile]
  rw [hthrow rs.time]
  simp only [show ((0:Nat) + 1 < MAX_RETRIES) = True from by simp [MAX_RETRIES], if_true]
  rw [runWhile]
  rw [hthrow]
  simp only [show ((1:Nat) + 1 < MAX_RETRIES) = True from by simp [MAX_RETRIES], if_true]
  rw [runWhile]
  rw [hthrow]
  simp only [show ((2:Nat) + 1 < MAX_RETRIES) = False from by simp [MAX_RETRIES], if_false]
  simp [persist, reportProgress, failedWrite, progressOf, orderIndex,
    List.append_assoc, Nat.add_assoc, MAX_RETRIES]

theorem exhaustedConfirmMessage_contains_desc (d e : String) :
    ∃ pre post, exhaustedConfirmMessage d e = pre ++ (d ++ post) := by
  refine ⟨"\"", "\" failed after " ++ toString MAX_RETRIES ++
    " attempts.\n\nError: " ++ e ++
    "\n\nThis could be caused by a temporary network issue, a misconfigured API key, " ++
    "or a problem with the remote server. You can retry the deployment from the beginning " ++
    "to try again.\n\nWould you like to retry from the beginning?", ?_⟩
  simp [exhaustedConfirmMessage, String.append_assoc]

theorem exhaustedConfirmMessage_contains_err (d e : String) :
    ∃ pre post, exhaustedConfirmMessage d e = pre ++ (e ++ post) := by
  refine ⟨"\"" ++ d ++ "\" failed after " ++ toString MAX_RETRIES ++
    " attempts.\n\nError: ",
    "\n\nThis could be caused by a temporary network issue, a misconfigured API key, " ++
    "or a problem with the remote server. You can retry the deployment from the beginning " ++
    "to try again.\n\nWould you like to retry from the beginning?", ?_⟩
  simp [exhaustedConfirmMessage, String.append_assoc]

theorem exhaustedConfirmMessage_contains_retries (d e : String) :
    ∃ pre post, exhaustedConfirmMessage d e =
      pre ++ (toString MAX_RETRIES ++ post) := by
  refine ⟨"\"" ++ d ++ "\" failed after ",
    " attempts.\n\nError: " ++ e ++
    "\n\nThis could be caused by a temporary network issue, a misconfigured API key, " ++
    "or a problem with the remote server. You can retry the deployment from the beginning " ++
    "to try again.\n\nWould you like to retry from the beginning?", ?_⟩
  simp [exhaustedConfirmMessage, String.append_assoc]

/-- C2: for a checkpoint whose stored retry count starts at 0 and whose
step implementation throws on every attempt, the per-checkpoint retry loop
executes the step exactly 3 times (MAX_RETRIES) and invokes the
confirmation callback exactly once, as the very next event after the third
failed execution — never before the third failure and with no fourth
attempt — with a message containing the step description, the final error
message, and the retry bound 3. -/
theorem claim2_retry_bound_three_attempts (env : Env) (c : CheckpointName)
    (errF : Nat → String)
    (hthrow : ∀ t, env.stepOutcome c t = some (errF t))
    (rs : RunState) (rc0 : Nat) (hrc : rc0 = 0) :
    ∃ rsEnd : RunState,
      ((env.confirmAnswer rs.confirms = true ∧
          runWhile env c (MAX_RETRIES - rc0) rc0 rs = .restart rsEnd) ∨
        (env.confirmAnswer rs.confirms = false ∧
          runWhile env c (MAX_RETRIES - rc0) rc0 rs = .thrown rsEnd
            { message := terminalErrorMessage (getCheckpointDescription c)
                (errF (rs.time + 2))
            , checkpoint := c
            , retryCount := MAX_RETRIES
            , recoverable := false })) ∧
      executedSteps rsEnd.trace = executedSteps rs.trace ++ [c, c, c] ∧
      confirmMessages rsEnd.trace = confirmMessages rs.trace ++
        [exhaustedConfirmMessage (getCheckpointDescription c)
          (errF (rs.time + 2))] ∧
      (∃ st1 st2 st3 p1 p2 ans,
        rsEnd.trace = rs.trace ++
          [ Event.stepExecuted c false, Event.persisted st1,
            Event.progressReport p1,
            Event.stepExecuted c false, Event.persisted st2,
            Event.progressReport p2,
            Event.stepExecuted c false, Event.persisted st3,
            Event.confirmAsked (exhaustedConfirmMessage
              (getCheckpointDescription c) (errF (rs.time + 2))) ans ]) ∧
      (∃ pre post, exhaustedConfirmMessage (getCheckpointDescription c)
          (errF (rs.time + 2)) = pre ++ (getCheckpointDescription c ++ post)) ∧
      (∃ pre post, exhaustedConfirmMessage (getCheckpointDescription c)
          (errF (rs.time + 2)) = pre ++ (errF (rs.time + 2) ++ post)) ∧
      (∃ pre post, exhaustedConfirmMessage (getCheckpointDescription c)
          (errF (rs.time + 2)) = pre ++ (toString MAX_RETRIES ++ post)) := by
  subst hrc
  rw [runWhile_exhausted env c errF hthrow rs]
  simp only []
  by_cases hans : env.confirmAnswer rs.confirms
  · refine ⟨_, Or.inl ⟨hans, by rw [if_pos hans]⟩, ?_, ?_, ?_, ?_, ?_, ?_⟩
    · simp [executedSteps_append, executedSteps]
    · simp [confirmMessages_append, confirmMessages]
    · exact ⟨_, _, _, _, _, _, rfl⟩
    · exact exhaustedConfirmMessage_contains_desc _ _
    · exact exhaustedConfirmMessage_contains_err _ _
    · exact exhaustedConfirmMessage_contains_retries _ _
  · refine ⟨_, Or.inr ⟨by simpa using hans, by rw [if_neg hans]⟩,
      ?_, ?_, ?_, ?_, ?_, ?_⟩
    · simp [executedSteps_append, executedSteps]
    · simp [confirmMessages_append, confirmMessages]
    · exact ⟨_, _, _, _, _, _, rfl⟩
    · exact exhaustedConfirmMessage_contains_desc _ _
    · exact exhaustedConfirmMessage_contains_err _ _
    · exact exhaustedConfirmMessage_contains_retries _ _

/-- C3 (amended): after a checkpoint exhausts its retries, if the
confirmation callback returns true the orchestrator resets via
resetToCheckpoint at server_created — clearing every ledger entry bearing
a fixed-order index (all of them, when no legacy out-of-order entry is
present), setting status to initialized when the array empties
(configuring otherwise — not provisioning), clearing lastError — and
restarts execution at the first checkpoint by re-running the loop over the
whole order; if it returns false, the checkpoints array is left unchanged,
the persisted status is failed, the persisted lastError equals the message
of the final thrown error, and the run surfaces a DeploymentError whose
checkpoint is the failed checkpoint, whose retryCount is 3, and whose
recoverable flag is false. -/
theorem claim3_exhaustion_restart_or_terminal (env : Env)
    (c : CheckpointName) (rest : List CheckpointName) (errF : Nat → String)
    (hthrow : ∀ t, env.stepOutcome c t = some (errF t))
    (rs : RunState) (hrc : getCheckpointRetryCount rs.state c = 0) :
    ∃ rsEnd : RunState,
      rsEnd.state.checkpoints = rs.state.checkpoints ∧
      rsEnd.state.status = .failed ∧
      rsEnd.state.lastError = some (errF (rs.time + 2)) ∧
      (env.confirmAnswer rs.confirms = true →
        ∀ fuel, execFrom env (fuel + 1) (c :: rest) rs =
          execFrom env fuel CHECKPOINT_ORDER
            (persist rsEnd (resetToCheckpoint rsEnd.state .server_created
              (toString rsEnd.clock))) ∧
          (resetToCheckpoint rsEnd.state .server_created
              (toString rsEnd.clock)).checkpoints =
            rs.state.checkpoints.filter
              (fun cp => decide (orderIndex cp.name < 0)) ∧
          ((∀ cp ∈ rs.state.checkpoints, cp.name ∈ CHECKPOINT_ORDER) →
            (resetToCheckpoint rsEnd.state .server_created
              (toString rsEnd.clock)).checkpoints = [] ∧
            (resetToCheckpoint rsEnd.state .server_created
              (toString rsEnd.clock)).status = .initialized) ∧
          (resetToCheckpoint rsEnd.state .server_created
            (toString rsEnd.clock)).lastError = none) ∧
      (env.confirmAnswer rs.confirms = false →
        ∀ fuel, execFrom env fuel (c :: rest) rs = .error rsEnd
          { message := terminalErrorMessage (getCheckpointDescription c)
              (errF (rs.time + 2))
          , checkpoint := c
          , retryCount := MAX_RETRIES
          , recoverable := false }) := by
  have hexh := runWhile_exhausted env c errF hthrow
    (reportProgress rs c (getCheckpointDescription c))
  simp only [] at hexh
  by_cases hans : env.confirmAnswer rs.confirms
  · rw [if_pos (show env.confirmAnswer
        (reportProgress rs c (getCheckpointDescription c)).confirms = true
        from hans)] at hexh
    obtain ⟨R, hR⟩ : ∃ R, runWhile env c (MAX_RETRIES - 0) 0
        (reportProgress rs c (getCheckpointDescription c)) =
          StepLoopResult.restart R := ⟨_, hexh⟩
    have hRv := StepLoopResult.restart.inj (hR.symm.trans hexh)
    have hpass : execPass env (c :: rest) rs = .restartRequested R := by
      rw [execPass_cons, hrc, hR]
    refine ⟨R, ?_, ?_, ?_, ?_, ?_⟩
    · rw [hRv]
      rfl
    · rw [hRv]
      rfl
    · rw [hRv]
      rfl
    · intro _ fuel
      refine ⟨?_, ?_, ?_, ?_⟩
      · simp [execFrom, hpass]
        rfl
      · rw [hRv]
        rfl
      · intro hall
        have hfil : (List.filter
            (fun cp => decide (jsIndexOf CHECKPOINT_ORDER cp.name <
              jsIndexOf CHECKPOINT_ORDER CheckpointName.server_created))
            R.state.checkpoints) = [] := by
          rw [List.filter_eq_nil_iff]
          intro cp hcp
          rw [hRv] at hcp
          have hcp2 : cp ∈ rs.state.checkpoints := hcp
          have := orderIndex_mem_nonneg (hall cp hcp2)
          simp only [orderIndex] at this
          simp only [decide_eq_true_eq, not_lt]
          have h0 : jsIndexOf CHECKPOINT_ORDER CheckpointName.server_created = 0 := by
            decide
          omega
        constructor
        · show (List.filter _ _) = []
          exact hfil
        · show (if (List.filter _ _).length > 0 then
              DeploymentStatus.configuring else .initialized) = .initialized
          rw [hfil]
          rfl
      · rfl
    · intro hansf
      rw [hans] at hansf
      exact absurd hansf (by simp)
  · rw [if_neg (show ¬ env.confirmAnswer
        (reportProgress rs c (getCheckpointDescription c)).confirms = true
        from hans)] at hexh
    obtain ⟨R, hR⟩ : ∃ R, runWhile env c (MAX_RETRIES - 0) 0
        (reportProgress rs c (getCheckpointDescription c)) =
          StepLoopResult.thrown R
            { message := terminalErrorMessage (getCheckpointDescription c)
                (errF (rs.time + 2))
            , checkpoint := c
            , retryCount := MAX_RETRIES
            , recoverable := false } := ⟨_, hexh⟩
    have hRv := (StepLoopResult.thrown.inj (hR.symm.trans hexh)).1
    have hpass : execPass env (c :: rest) rs = .finished (.error R
        { message := terminalErrorMessage (getCheckpointDescription c)
            (errF (rs.time + 2))
        , checkpoint := c
        , retryCount := MAX_RETRIES
        , recoverable := false }) := by
      rw [execPass_cons, hrc, hR]
    refine ⟨R, ?_, ?_, ?_, ?_, ?_⟩
    · rw [hRv]
      rfl
    · rw [hRv]
      rfl
    · rw [hRv]
      rfl
    · intro hanst
      exact absurd hanst hans
    · intro _ fuel
      exact execFrom_of_execPass_finished env fuel _ rs _ hpass

/-- C1 (amended): for every deployment whose checkpoint ledger is a
proper prefix C of the fixed 16-checkpoint order (fewer than all 16
entries), deploy executes exactly the checkpoints not in C, in the fixed
order — beginning at the successor of the highest-order element of C, at
server_created when C is empty — and never executes any checkpoint
already in C. (For C = the whole order the code instead re-executes the
final `completed` checkpoint; see the counterexample.) -/
theorem claim1_resume_executes_exactly_missing (k : Nat) (hk : k < 16)
    (status : DeploymentStatus) (ts : CheckpointName → String)
    (rc : CheckpointName → Nat) (env : Env) (fuel : Nat)
    (hok : ∀ c t, env.stepOutcome c t = none) :
    ∃ rs', deploy env fuel { state := prefixState k status ts rc } =
        .success rs' ∧
      executedSteps rs'.trace = CHECKPOINT_ORDER.drop k ∧
      (∀ c ∈ CHECKPOINT_ORDER.take k, c ∉ executedSteps rs'.trace) := by
  rcases deploy_prefixState k hk status ts rc env fuel hok
    with ⟨rs', h1, h2, _, _⟩
  refine ⟨rs', h1, h2, ?_⟩
  intro c hc hmem
  rw [h2] at hmem
  exact List.disjoint_take_drop order_nodup (le_refl k) hc hmem

/-- C6 (amended): in a failure-free deploy of a deployment whose ledger is
a proper prefix of the order and whose status has not yet passed
provisioning, every persisted status transition moves forward along
initialized → provisioning → configuring → deployed. The original
invariant fails in general because deploy unconditionally writes
provisioning first (moving backward from configuring, deployed or failed
states), each failed attempt transiently writes failed, and a confirmed
full retry resets to initialized rather than provisioning; see the
counterexample for the deployed case. -/
theorem claim6_status_moves_forward_without_failures (k : Nat)
    (hk : k < 16) (status : DeploymentStatus) (ts : CheckpointName → String)
    (rc : CheckpointName → Nat) (env : Env) (fuel : Nat)
    (hok : ∀ c t, env.stepOutcome c t = none)
    (hstat : statusRank status ≤ statusRank .provisioning) :
    ∃ rs', deploy env fuel { state := prefixState k status ts rc } =
        .success rs' ∧
      List.Pairwise (fun a b => statusRank a ≤ statusRank b)
        (status :: persistedStatuses rs'.trace) := by
  rcases deploy_prefixState k hk status ts rc env fuel hok
    with ⟨rs', h1, _, h3, _⟩
  refine ⟨rs', h1, ?_⟩
  rw [h3]
  rw [List.pairwise_cons]
  constructor
  · intro b hb
    have hb1 : 1 ≤ statusRank b := by
      rcases List.mem_cons.mp hb with rfl | hb2
      · decide
      · rcases List.mem_append.mp hb2 with hb3 | hb4
        · rcases List.mem_map.mp hb3 with ⟨c, _, rfl⟩
          unfold completionStatus
          split <;> decide
        · have : b = .deployed := by simpa using hb4
          subst this
          decide
    have hp : statusRank status ≤ 1 := by
      simpa [statusRank] using hstat
    omega
  · interval_cases k <;> decide

/-- C8: every progress report carries progress equal to the reported
checkpoint's fixed-order index divided by (N - 1) and scaled to 100,
where N = 16 is the total number of checkpoints; and across a failure-free
deploy the sequence of reported progress values is monotonically
non-decreasing. -/
theorem claim8_progress_linear_and_monotone (k : Nat) (hk : k < 16)
    (status : DeploymentStatus) (ts : CheckpointName → String)
    (rc : CheckpointName → Nat) (env : Env) (fuel : Nat)
    (hok : ∀ c t, env.stepOutcome c t = none) :
    (CHECKPOINT_ORDER.length = 16 ∧
      ∀ (rsx : RunState) (step : CheckpointName) (msg : String),
        progressValues (reportProgress rsx step msg).trace =
          progressValues rsx.trace ++
            [(orderIndex step : ℚ) / ((16 : ℚ) - 1) * 100]) ∧
    (∃ rs', deploy env fuel { state := prefixState k status ts rc } =
        .success rs' ∧
      List.Pairwise (fun a b => a ≤ b) (progressValues rs'.trace)) := by
  constructor
  · refine ⟨order_length, ?_⟩
    intro rsx step msg
    simp [reportProgress, progressValues_append, progressValues, orderIndex,
      order_length]
  · rcases deploy_prefixState k hk status ts rc env fuel hok
      with ⟨rs', h1, _, _, h4⟩
    refine ⟨rs', h1, ?_⟩
    rw [h4]
    have hord : (CHECKPOINT_ORDER.drop k).Pairwise
        (fun a b => orderIndex a ≤ orderIndex b) :=
      List.Pairwise.sublist (List.drop_sublist k CHECKPOINT_ORDER)
        order_pairwise
    rw [List.pairwise_map]
    refine hord.imp ?_
    intro a b hab
    unfold progressOf
    have hcast : (orderIndex a : ℚ) ≤ (orderIndex b : ℚ) := by
      exact_mod_cast hab
    gcongr
    norm_num [order_length]

/-! ### The at-most-one-entry-per-name invariant -/

theorem nodupLedger_mark (s : DeploymentState) (c : CheckpointName)
    (rcn : Nat) (now : String) (h : NodupLedger s) :
    NodupLedger (markCheckpointComplete s c rcn now) := by
  unfold NodupLedger at h ⊢
  rw [markCheckpointComplete_checkpoints, ledgerNames_overwriteEntry]
  by_cases hm : (⟨c, now, rcn⟩ : Checkpoint).name ∈ ledgerNames s.checkpoints
  · simpa [hm] using h
  · simp only [hm, if_false]
    refine List.Nodup.append h (List.nodup_singleton _) ?_
    intro a ha hb
    have : a = c := by simpa using hb
    subst this
    exact hm ha

theorem nodupLedger_reset (s : DeploymentState) (c : CheckpointName)
    (now : String) (h : NodupLedger s) :
    NodupLedger (resetToCheckpoint s c now) := by
  unfold NodupLedger at h ⊢
  have hsub : (resetToCheckpoint s c now).checkpoints.Sublist
      s.checkpoints := by
    show (List.filter _ s.checkpoints).Sublist s.checkpoints
    exact List.filter_sublist s.checkpoints
  exact h.sublist (hsub.map _)

theorem nodupLedger_runWhile (env : Env) (c : CheckpointName) :
    ∀ (fuel rcn : Nat) (rs : RunState), NodupLedger rs.state →
      NodupLedger (runWhile env c fuel rcn rs).ctx.state := by
  intro fuel
  induction fuel with
  | zero =>
    intro rcn rs h
    exact h
  | succ f ih =>
    intro rcn rs h
    rw [runWhile]
    cases hso : env.stepOutcome c rs.time with
    | none =>
      simp only [hso]
      exact nodupLedger_mark _ _ _ _ h
    | some err =>
      simp only [hso]
      by_cases hlt : rcn + 1 < MAX_RETRIES
      · rw [if_pos hlt]
        exact ih _ _ h
      · rw [if_neg hlt]
        split_ifs with hans
        · exact h
        · exact h

theorem nodupLedger_execPass (env : Env) :
    ∀ (cps : List CheckpointName) (rs : RunState), NodupLedger rs.state →
      NodupLedger (execPass env cps rs).ctx.state := by
  intro cps
  induction cps with
  | nil =>
    intro rs h
    exact h
  | cons c rest ih =>
    intro rs h
    rw [execPass_cons]
    have hw := nodupLedger_runWhile env c
      (MAX_RETRIES - getCheckpointRetryCount rs.state c)
      (getCheckpointRetryCount rs.state c)
      (reportProgress rs c (getCheckpointDescription c)) h
    cases hcase : runWhile env c
        (MAX_RETRIES - getCheckpointRetryCount rs.state c)
        (getCheckpointRetryCount rs.state c)
        (reportProgress rs c (getCheckpointDescription c)) with
    | moveOn rs2 =>
      rw [hcase] at hw
      exact ih rs2 hw
    | restart rs2 =>
      rw [hcase] at hw
      exact hw
    | thrown rs2 e =>
      rw [hcase] at hw
      exact hw

theorem nodupLedger_execFrom (env : Env) :
    ∀ (fuel : Nat) (cps : List CheckpointName) (rs : RunState),
      NodupLedger rs.state →
      NodupLedger (execFrom env fuel cps rs).ctx.state := by
  intro fuel
  induction fuel with
  | zero =>
    intro cps rs h
    have hp := nodupLedger_execPass env cps rs h
    show NodupLedger (match execPass env cps rs with
      | .finished r => r
      | .restartRequested rs => .outOfFuel rs).ctx.state
    cases hcase : execPass env cps rs with
    | finished r =>
      rw [hcase] at hp
      exact hp
    | restartRequested rs2 =>
      rw [hcase] at hp
      exact hp
  | succ f ih =>
    intro cps rs h
    have hp := nodupLedger_execPass env cps rs h
    show NodupLedger (match execPass env cps rs with
      | .finished r => r
      | .restartRequested rs => execFrom env f CHECKPOINT_ORDER
          (persist rs (resetToCheckpoint rs.state
            (CHECKPOINT_ORDER.headD .completed) (toString rs.clock)))).ctx.state
    cases hcase : execPass env cps rs with
    | finished r =>
      rw [hcase] at hp
      exact hp
    | restartRequested rs2 =>
      rw [hcase] at hp
      exact ih CHECKPOINT_ORDER _ (nodupLedger_reset _ _ _ hp)

/-- C5: the invariant "at most one ledger entry per checkpoint name" is
preserved by markCheckpointComplete (which overwrites an existing entry in
place rather than appending a duplicate), by resetToCheckpoint, and by an
entire orchestrator run under any environment — including runs with
failed attempts and confirmed restarts. -/
theorem claim5_one_entry_per_name_preserved (s : DeploymentState)
    (c : CheckpointName) (rcn : Nat) (now : String) (env : Env)
    (fuel : Nat) (rs : RunState) :
    (NodupLedger s → NodupLedger (markCheckpointComplete s c rcn now)) ∧
    (NodupLedger s → NodupLedger (resetToCheckpoint s c now)) ∧
    (NodupLedger rs.state → NodupLedger (deploy env fuel rs).ctx.state) := by
  refine ⟨nodupLedger_mark s c rcn now, nodupLedger_reset s c now, ?_⟩
  intro h
  unfold deploy
  exact nodupLedger_execFrom env fuel _ _ h

/-- C1 counterexample: when the checkpoint ledger C is the entire fixed
order (a prefix of itself), deploy executes the `completed` checkpoint —
an element of C — instead of executing nothing, so resume re-executes a
checkpoint already in C. -/
theorem claim1_counterexample :
    executedSteps (deploy envAllOk 0
        { state := fullLedgerState }).ctx.trace = [CheckpointName.completed] ∧
    CheckpointName.completed ∈ ledgerNames fullLedgerState.checkpoints ∧
    CHECKPOINT_ORDER.drop 16 = ([] : List CheckpointName) := by
  refine ⟨by decide, by decide, by decide⟩

/-- C3 counterexample: a run in which ssh_key_uploaded fails three times
and the user confirms the restart; the status written by the restart path
is initialized — not provisioning as claimed — and provisioning is never
written again after the initial deploy write. -/
theorem claim3_counterexample :
    persistedStatuses (deploy envFailThenRestart 1
        { state := oneCheckpointState }).ctx.trace =
      [.provisioning, .failed, .failed, .failed, .initialized,
        .configuring, .configuring, .configuring, .configuring, .configuring,
        .configuring, .configuring, .configuring, .configuring, .configuring,
        .configuring, .configuring, .configuring, .configuring, .configuring,
        .deployed, .deployed] ∧
    (persistedStatuses (deploy envFailThenRestart 1
        { state := oneCheckpointState }).ctx.trace)[4]? =
      some DeploymentStatus.initialized ∧
    DeploymentStatus.provisioning ∉
      (persistedStatuses (deploy envFailThenRestart 1
        { state := oneCheckpointState }).ctx.trace).drop 1 := by
  refine ⟨by decide, by decide, by decide⟩

/-- C6 counterexample: calling deploy on an already-deployed deployment
writes status provisioning — a backward transition from deployed — without
any confirmed retry (no confirmation was even requested). -/
theorem claim6_counterexample :
    fullLedgerState.status = .deployed ∧
    persistedStatuses (deploy envAllOk 0
        { state := fullLedgerState }).ctx.trace =
      [.provisioning, .deployed, .deployed] ∧
    confirmMessages (deploy envAllOk 0
        { state := fullLedgerState }).ctx.trace = [] ∧
    statusRank .provisioning < statusRank .deployed := by
  refine ⟨by decide, by decide, by decide, by decide⟩

/-- C10 counterexample: resetToCheckpoint whose target is the legacy
channel_paired name (a valid CheckpointName with no index in the fixed
order) removes the out-of-order entry instead of keeping it. -/
theorem claim10_counterexample :
    legacyEntry.name ∉ CHECKPOINT_ORDER ∧
    legacyEntry ∈ legacyState.checkpoints ∧
    (resetToCheckpoint legacyState .channel_paired ("now")).checkpoints = [] := by
  refine ⟨by decide, by decide, by decide⟩

/-- Witness for C1 at the two-checkpoint prefix. -/
theorem claim1_witness :
    ∃ rs', deploy envAllOk 0
        { state := prefixState 2 .configuring (fun _ => "t") (fun _ => 0) } =
        .success rs' ∧
      executedSteps rs'.trace = CHECKPOINT_ORDER.drop 2 ∧
      (∀ c ∈ CHECKPOINT_ORDER.take 2, c ∉ executedSteps rs'.trace) :=
  claim1_resume_executes_exactly_missing 2 (by decide) .configuring
    (fun _ => "t") (fun _ => 0) envAllOk 0 (fun _ _ => rfl)

/-- Witness for C2: a step that always throws "boom" from a fresh state is
executed exactly three times before the single confirmation request. -/
theorem claim2_witness :
    ∃ rsEnd : RunState,
      executedSteps rsEnd.trace =
        [.swap_configured, .swap_configured, .swap_configured] ∧
      confirmMessages rsEnd.trace =
        [exhaustedConfirmMessage
          (getCheckpointDescription .swap_configured) ("boom")] := by
  rcases claim2_retry_bound_three_attempts envAlwaysBoom .swap_configured
      (fun _ => "boom") (fun _ => rfl)
      { state := { status := .initialized } } 0 rfl
    with ⟨rsEnd, _, h2, h3, _⟩
  refine ⟨rsEnd, ?_, ?_⟩
  · simpa [executedSteps] using h2
  · simpa [confirmMessages] using h3

/-- Witness for C3: with every step throwing "boom" and the confirmation
declined, the loop at ssh_key_uploaded leaves the ledger unchanged in the
failed state and surfaces the non-recoverable DeploymentError. -/
theorem claim3_witness :
    ∃ rsEnd : RunState,
      rsEnd.state.checkpoints = oneCheckpointState.checkpoints ∧
      rsEnd.state.status = .failed ∧
      rsEnd.state.lastError = some ("boom") ∧
      execFrom envAlwaysBoom 0 [.ssh_key_uploaded]
          { state := oneCheckpointState } =
        .error rsEnd
          { message := terminalErrorMessage
              (getCheckpointDescription .ssh_key_uploaded) ("boom")
          , checkpoint := .ssh_key_uploaded
          , retryCount := MAX_RETRIES
          , recoverable := false } := by
  rcases claim3_exhaustion_restart_or_terminal envAlwaysBoom
      .ssh_key_uploaded [] (fun _ => "boom") (fun _ => rfl)
      { state := oneCheckpointState } (by decide)
    with ⟨rsEnd, h1, h2, h3, _, h5⟩
  exact ⟨rsEnd, h1, h2, h3, h5 rfl 0⟩

/-- Witness for C4: the two-entry ledger yields the same last checkpoint
in either storage order, and the empty ledger yields none. -/
theorem claim4_witness :
    getLastCheckpoint
        { status := DeploymentStatus.configuring, checkpoints := [cpB, cpA] } =
      getLastCheckpoint
        { status := DeploymentStatus.configuring, checkpoints := [cpA, cpB] } ∧
    getLastCheckpoint { status := DeploymentStatus.initialized } = none := by
  constructor
  · have h := (claim4_getLastCheckpoint_highest_order_any_storage
      { status := .configuring, checkpoints := [cpA, cpB] }).2.2.2
    have h2 := h [cpB, cpA] (by decide)
    simpa using h2
  · exact (claim4_getLastCheckpoint_highest_order_any_storage
      { status := .initialized }).1 rfl

/-- Witness for C5 on a concrete ledger and a concrete restarting run. -/
theorem claim5_witness :
    NodupLedger (markCheckpointComplete oneCheckpointState
      .server_created 1 ("t2")) ∧
    NodupLedger (resetToCheckpoint oneCheckpointState .server_created ("t3")) ∧
    NodupLedger (deploy envFailThenRestart 1
      { state := oneCheckpointState }).ctx.state := by
  have h := claim5_one_entry_per_name_preserved oneCheckpointState
    .server_created 1 ("t2") envFailThenRestart 1 { state := oneCheckpointState }
  have h2 := claim5_one_entry_per_name_preserved oneCheckpointState
    .server_created 1 ("t3") envFailThenRestart 1 { state := oneCheckpointState }
  exact ⟨h.1 (by decide), h2.2.1 (by decide), h.2.2 (by decide)⟩

/-- Witness for C6 from the empty ledger in the initialized status. -/
theorem claim6_witness :
    ∃ rs', deploy envAllOk 0
        { state := prefixState 0 .initialized (fun _ => "t") (fun _ => 0) } =
        .success rs' ∧
      List.Pairwise (fun a b => statusRank a ≤ statusRank b)
        (DeploymentStatus.initialized :: persistedStatuses rs'.trace) :=
  claim6_status_moves_forward_without_failures 0 (by decide) .initialized
    (fun _ => "t") (fun _ => 0) envAllOk 0 (fun _ _ => rfl) (by decide)

/-- Witness for C8 from the empty ledger. -/
theorem claim8_witness :
    (CHECKPOINT_ORDER.length = 16 ∧
      ∀ (rsx : RunState) (step : CheckpointName) (msg : String),
        progressValues (reportProgress rsx step msg).trace =
          progressValues rsx.trace ++
            [(orderIndex step : ℚ) / ((16 : ℚ) - 1) * 100]) ∧
    (∃ rs', deploy envAllOk 0
        { state := prefixState 0 .initialized (fun _ => "t") (fun _ => 0) } =
        .success rs' ∧
      List.Pairwise (fun a b => a ≤ b) (progressValues rs'.trace)) :=
  claim8_progress_linear_and_monotone 0 (by decide) .initialized
    (fun _ => "t") (fun _ => 0) envAllOk 0 (fun _ _ => rfl)

/-- Witness for C9: an unauthorized 401 yields false; a network exception
propagates. -/
theorem claim9_witness :
    validateAPIKey (.response
      { status := 401, ok := false, id := some ("unauthorized")
      , message := some ("Unable to authenticate you.") }) = .ok false ∧
    validateAPIKey (.networkError ("ECONNRESET")) =
      .error (.network ("ECONNRESET")) := by
  constructor
  · exact ((claim9_validateAPIKey_unauthorized_only (.response
      { status := 401, ok := false, id := some ("unauthorized")
      , message := some ("Unable to authenticate you.") })).1).mpr
      ⟨_, rfl, by decide, rfl, rfl⟩
  · exact (claim9_validateAPIKey_unauthorized_only
      (.networkError ("ECONNRESET"))).2.2.1 ("ECONNRESET") rfl

/-- Witness for C10 on the legacy-only ledger. -/
theorem claim10_witness :
    getLastCheckpoint legacyState = none ∧
    getNextCheckpoint legacyState = .server_created ∧
    legacyEntry ∈ (resetToCheckpoint legacyState
      .server_created ("now")).checkpoints := by
  have h := claim10_out_of_order_entries legacyState ("now")
  have hall : ∀ cp ∈ legacyState.checkpoints,
      cp.name ∉ CHECKPOINT_ORDER := by decide
  exact ⟨(h.1 hall).1, (h.1 hall).2,
    h.2 .server_created (by decide) legacyEntry (by decide) (by decide)⟩
